import Mathlib

/-
Verification of the dense vector/matrix storage and view layer of the
pykaldi binding module `kaldi/matrix/__init__.py`.

The Python module wraps kaldi `Vector`/`SubVector` and `Matrix`/`SubMatrix`
types and adds an `own_data` ownership flag, numpy-backed slicing, view
construction (`Vector.new`, `Matrix.new`), cloning, tolerance equality and
ownership-gated structural mutation (`resize_`, `transpose_`, `swap_`,
`__delitem__`).

The embedding below models the process heap as a store of float buffers
(element values abstracted as rationals, since the modelled operations only
move, compare and copy elements and never round).  A vector handle is a
(buffer id, offset, length, own_data) record; a matrix handle additionally
carries a column count and a row stride.  Numpy arrays appearing as
intermediate values of the indexing code are modelled as strided
descriptors over the same store.  External behaviour that the module
delegates to (numpy array conversion and basic indexing, Python slice
resolution, the kaldi kernels behind `Resize`, `Swap`, `RemoveElement`,
`ApproxEqual`, `SubVector`, `SubMatrix`) is not part of the reviewed file;
each such definition carries a doc comment starting with
`Modelled from the spec:` and follows the specification text for it.

Error values follow the taxonomy of the specification (section 7), which
names error *conditions*, not host exception classes: the ValueError and
TypeError raises guarding construction arguments are `valueConstraint`,
the IndexError raises for range violations are `bounds`, the ValueError
raises of the ownership guards are `ownershipViolation`, and the TypeError
raises for unsupported index kinds or unexpected result types are
`typeMismatch`.  `nameError` models the Python NameError produced when the
code evaluates an undefined variable (this actually happens in
`Matrix.new`, line 372, which formats an error message with the undefined
name `col_offset`).
-/

set_option autoImplicit false

namespace PK

/-- Error taxonomy of the specification, plus `nameError` for the Python
NameError raised when code evaluates an undefined variable. -/
inductive Err where
  | valueConstraint
  | bounds
  | ownershipViolation
  | typeMismatch
  | shapeMismatch
  | nameError
  deriving DecidableEq

/-- The heap: a list of float buffers, indexed by buffer id. -/
structure Store where
  bufs : List (List ℚ)
  deriving DecidableEq

/-- Contents of buffer `b` (missing buffers read as empty). -/
def Store.get (st : Store) (b : Nat) : List ℚ :=
  st.bufs.getD b []

/-- Replace the whole contents of buffer `b`. -/
def Store.writeBuf (st : Store) (b : Nat) (xs : List ℚ) : Store :=
  ⟨st.bufs.set b xs⟩

/-- Write one element of buffer `b`. -/
def Store.setBuf (st : Store) (b : Nat) (i : Nat) (x : ℚ) : Store :=
  st.writeBuf b ((st.get b).set i x)

/-- Allocate a fresh buffer holding `xs`; returns the new store and the
fresh buffer id. -/
def Store.alloc (st : Store) (xs : List ℚ) : Store × Nat :=
  (⟨st.bufs ++ [xs]⟩, st.bufs.length)

/-- Read buffer `b` at an integer position (in-range uses are guaranteed by
the validity hypotheses of the theorems below; out-of-range reads default
to 0). -/
def readBuf (st : Store) (b : Nat) (i : Int) : ℚ :=
  (Store.get st b).getD i.toNat 0

/-- A Python slice object: optional start, stop and step. -/
structure PySlice where
  start : Option Int
  stop : Option Int
  step : Option Int
  deriving DecidableEq

/-- Resolved slice data: first index, number of elements, step. -/
structure SliceInfo where
  start : Int
  len : Int
  step : Int
  deriving DecidableEq

/-- Modelled from the spec: clamping of a slice endpoint against a sequence
of length `n`, as CPython resolves slice bounds (negative endpoints count
from the end, then the endpoint is clamped into `[lower, upper]`). -/
def clampIdx (v lower upper n : Int) : Int :=
  if v < 0 then
    let w := v + n
    if w < lower then lower else w
  else
    if v > upper then upper else v

/-- Modelled from the spec: resolution of one optional slice endpoint: a
missing endpoint takes the direction-dependent default, a given one is
wrapped and clamped. -/
def resolveEndpoint (e : Option Int) (dflt lower upper n : Int) : Int :=
  match e with
  | none => dflt
  | some v => clampIdx v lower upper n

/-- Modelled from the spec: the element count of a resolved slice. -/
def sliceLen (start stop g : Int) : Int :=
  if 0 < g then (if start < stop then (stop - start - 1) / g + 1 else 0)
  else (if stop < start then (start - stop - 1) / (-g) + 1 else 0)

/-- Modelled from the spec: Python slice resolution (the semantics of
`slice.indices(n)`), which the source delegates to via numpy basic
indexing.  A zero step is a value error; otherwise the result is the first
index, the element count and the step of the selected range. -/
def sliceIndices (s : PySlice) (n : Int) : Except Err SliceInfo :=
  let g := s.step.getD 1
  if g = 0 then .error .valueConstraint
  else
    let lower : Int := if g < 0 then -1 else 0
    let upper : Int := if g < 0 then n - 1 else n
    let start := resolveEndpoint s.start (if g < 0 then upper else lower) lower upper n
    let stop := resolveEndpoint s.stop (if g < 0 then lower else upper) lower upper n
    .ok ⟨start, sliceLen start stop g, g⟩

/-- A 1-D numpy float32 array: a strided view of one store buffer. -/
structure Ndarray1 where
  buf : Nat
  off : Int
  step : Int
  len : Nat
  deriving DecidableEq

/-- Modelled from the spec: reading element `k` of a 1-D numpy array. -/
def npGet (st : Store) (a : Ndarray1) (k : Nat) : ℚ :=
  readBuf st a.buf (a.off + k * a.step)

/-- Modelled from the spec: slicing a 1-D numpy array never copies; it
yields a strided view whose step is the product of the old step and the
slice step. -/
def Ndarray1.getSlice (a : Ndarray1) (s : PySlice) : Except Err Ndarray1 :=
  match sliceIndices s (a.len : Int) with
  | .error e => .error e
  | .ok q => .ok ⟨a.buf, a.off + q.start * a.step, a.step * q.step, q.len.toNat⟩

/-- A 2-D numpy float32 array: a doubly strided view of one store buffer. -/
structure Ndarray2 where
  buf : Nat
  off : Int
  rows : Nat
  cols : Nat
  rstride : Int
  cstride : Int
  deriving DecidableEq

/-- Modelled from the spec: reading element `(i, j)` of a 2-D numpy
array. -/
def npGet2At (st : Store) (a : Ndarray2) (i j : Nat) : ℚ :=
  readBuf st a.buf (a.off + i * a.rstride + j * a.cstride)

/-- The user facing vector handle: kaldi `Vector`/`SubVector` data plus the
`own_data` flag set by the Python wrapper.  The kaldi vector types are
always contiguous (element stride 1). -/
structure Vector where
  buf : Nat
  off : Nat
  len : Nat
  own_data : Bool
  deriving DecidableEq

/-- The user facing matrix handle: kaldi `Matrix`/`SubMatrix` data (row
major, row stride possibly exceeding the column count) plus the `own_data`
flag set by the Python wrapper. -/
structure Matrix where
  buf : Nat
  off : Nat
  rows : Nat
  cols : Nat
  stride : Nat
  own_data : Bool
  deriving DecidableEq

/-- Element `i` of a vector handle. -/
def Vector.read (st : Store) (v : Vector) (i : Nat) : ℚ :=
  (Store.get st v.buf).getD (v.off + i) 0

/-- The contents of a vector handle, as a list. -/
def Vector.data (st : Store) (v : Vector) : List ℚ :=
  List.take v.len (List.drop v.off (Store.get st v.buf))

/-- Element `(i, j)` of a matrix handle. -/
def Matrix.read (st : Store) (m : Matrix) (i j : Nat) : ℚ :=
  (Store.get st m.buf).getD (m.off + i * m.stride + j) 0

/-- The contents of a matrix handle, as a list of rows. -/
def Matrix.data (st : Store) (m : Matrix) : List (List ℚ) :=
  (List.range m.rows).map fun i =>
    (List.range m.cols).map fun j => Matrix.read st m i j

/-- A vector handle references an existing buffer and stays inside it. -/
def Vector.valid (st : Store) (v : Vector) : Prop :=
  v.buf < st.bufs.length ∧ v.off + v.len ≤ (Store.get st v.buf).length

/-- An owning vector handle: `own_data` is set and, as for every handle the
wrapper creates through `Vector.__init__` or `clone`, the handle covers a
whole buffer from offset 0. -/
def Vector.owning (st : Store) (v : Vector) : Prop :=
  v.own_data = true ∧ v.off = 0 ∧ Vector.valid st v

/-- A matrix handle references an existing buffer and stays inside it. -/
def Matrix.valid (st : Store) (m : Matrix) : Prop :=
  m.buf < st.bufs.length ∧ m.cols ≤ m.stride ∧
    m.off + m.rows * m.stride ≤ (Store.get st m.buf).length

/-- Modelled from the spec: `vector_to_numpy` exports a vector handle as a
1-D numpy array sharing its buffer (`Vector.numpy`, lines 118-120). -/
def Vector.numpy (v : Vector) : Ndarray1 :=
  ⟨v.buf, (v.off : Int), 1, v.len⟩

/-- Modelled from the spec: `matrix_to_numpy` exports a matrix handle as a
2-D numpy array sharing its buffer (`Matrix.numpy`, lines 428-430). -/
def Matrix.numpy (m : Matrix) : Ndarray2 :=
  ⟨m.buf, (m.off : Int), m.rows, m.cols, (m.stride : Int), 1⟩

/-- A vector-like construction source for `Vector.new` (line 57): a kaldi
vector (used as is), a 1-D numpy float32 array (converted, sharing memory
when the layout already fits), or a plain sequence (always copied). -/
inductive VecSource where
  | vec (v : Vector)
  | arr (a : Ndarray1)
  | seq (xs : List ℚ)
  deriving DecidableEq

/-- Length of the source, as `len(obj)` reports it after conversion. -/
def VecSource.srcLen : VecSource → Nat
  | .vec v => v.len
  | .arr a => a.len
  | .seq xs => xs.length

/-- The conversion step of `Vector.new` (lines 77-81).  A kaldi vector is
used directly.  Modelled from the spec: for the other sources the code
calls `numpy.array(obj, dtype=float32, copy=False, order=C)`, which shares
the buffer exactly when the source is already a contiguous (step 1) float32
array and otherwise copies the elements into a fresh contiguous buffer; a
plain sequence is always copied.  Returns the store plus the buffer id,
base offset and length of the contiguous result. -/
def VecSource.prepare (st : Store) : VecSource → Store × Nat × Int × Nat
  | .vec v => (st, v.buf, (v.off : Int), v.len)
  | .arr a =>
      if a.step = 1 then (st, a.buf, a.off, a.len)
      else
        let p := st.alloc ((List.range a.len).map fun k => npGet st a k)
        (p.1, p.2, 0, a.len)
  | .seq xs =>
      let p := st.alloc xs
      (p.1, p.2, 0, xs.length)

/-- `Vector.new` (lines 56-95): convert the source, bounds check `start`
and `length` (`length = None` defaults to `len(obj) - start`), then build a
`SubVector` over the converted buffer.  The resulting handle never owns its
data (line 94). -/
def Vector.new (st : Store) (obj : VecSource) (start : Int)
    (length : Option Int) : Store × Except Err Vector :=
  match obj.prepare st with
  | (st1, buf, base, objLen) =>
    if 0 ≤ start ∧ start ≤ (objLen : Int) then
      let maxLen : Int := (objLen : Int) - start
      let len := length.getD maxLen
      if 0 ≤ len ∧ len ≤ maxLen then
        (st1, .ok ⟨buf, (base + start).toNat, len.toNat, false⟩)
      else (st1, .error .bounds)
    else (st1, .error .bounds)

/-- Index argument of `Vector.__getitem__` (line 256): an integer, a slice,
or anything else. -/
inductive VIndex where
  | int (i : Int)
  | slice (s : PySlice)
  | other
  deriving DecidableEq

/-- Result of `Vector.__getitem__`: a float for an integer index, a vector
handle for a slice. -/
inductive VGetResult where
  | scalar (x : ℚ)
  | vec (v : Vector)
  deriving DecidableEq

/-- `Vector.__getitem__` (lines 276-281).  An integer index goes to the
kaldi getter (modelled from the spec: bounds checked against
`[0, length)`); a slice index goes through numpy slicing and `Vector.new`;
any other index is a type error. -/
def Vector.getitem (st : Store) (v : Vector) : VIndex → Store × Except Err VGetResult
  | .int i =>
      if 0 ≤ i ∧ i < (v.len : Int) then
        (st, .ok (.scalar (Vector.read st v i.toNat)))
      else (st, .error .bounds)
  | .slice s =>
      match Ndarray1.getSlice (Vector.numpy v) s with
      | .error e => (st, .error e)
      | .ok a =>
          match Vector.new st (.arr a) 0 none with
          | (st1, .ok w) => (st1, .ok (.vec w))
          | (st1, .error e) => (st1, .error e)
  | .other => (st, .error .typeMismatch)

/-- The integer-index, scalar-value case of `Vector.__setitem__` (lines
283-290), which delegates to numpy item assignment on the exported array.
Modelled from the spec: numpy item assignment accepts negative indices
(counting from the end) and reports out-of-range indices. -/
def Vector.setitemInt (st : Store) (v : Vector) (i : Int) (x : ℚ) :
    Option Err × Store :=
  let j := if i < 0 then i + (v.len : Int) else i
  if 0 ≤ j ∧ j < (v.len : Int) then
    (none, st.setBuf v.buf (v.off + j.toNat) x)
  else (some .bounds, st)

/-- Fill policy of the kaldi resize kernels. -/
inductive MatrixResizeType where
  | SET_ZERO
  | UNDEFINED
  | COPY_DATA
  deriving DecidableEq

/-- Stride policy of the kaldi matrix resize kernel. -/
inductive MatrixStrideType where
  | DEFAULT
  | EQUAL_NUM_COLS
  deriving DecidableEq

/-- `Vector.resize_` (lines 126-132): only an owning handle may resize;
otherwise the guard raises before anything is touched.  Modelled from the
spec: the kaldi `Resize` kernel reallocates the buffer, copying the old
prefix under `COPY_DATA` and otherwise filling with zeros (`UNDEFINED`
contents are unobservable and modelled as zeros). -/
def Vector.resize_ (st : Store) (v : Vector) (n : Nat) (t : MatrixResizeType) :
    Option Err × Store × Vector :=
  if v.own_data then
    let newData : List ℚ :=
      match t with
      | .COPY_DATA => (List.take n (Vector.data st v)) ++ List.replicate (n - v.len) 0
      | _ => List.replicate n 0
    (none, st.writeBuf v.buf newData, ⟨v.buf, 0, n, true⟩)
  else (some .ownershipViolation, st, v)

/-- `Vector.swap_` (lines 134-140): both handles must own their data;
modelled from the spec: the kaldi `Swap` kernel exchanges the two buffer
pointers and sizes (the Python `own_data` attribute stays with each
wrapper object). -/
def Vector.swap_ (st : Store) (v w : Vector) : Option Err × Store × Vector × Vector :=
  if v.own_data && w.own_data then
    (none, st, ⟨w.buf, w.off, w.len, v.own_data⟩, ⟨v.buf, v.off, v.len, w.own_data⟩)
  else (some .ownershipViolation, st, v, w)

/-- `Vector.__delitem__` (lines 292-298): only an owning handle may remove
an element.  Modelled from the spec: the kaldi `RemoveElement` kernel
shifts the remaining elements down and shrinks the logical size, after a
bounds check. -/
def Vector.delitem (st : Store) (v : Vector) (i : Int) : Option Err × Store × Vector :=
  if v.own_data then
    if 0 ≤ i ∧ i < (v.len : Int) then
      (none, st.writeBuf v.buf ((Store.get st v.buf).eraseIdx (v.off + i.toNat)),
        ⟨v.buf, v.off, v.len - 1, true⟩)
    else (some .bounds, st, v)
  else (some .ownershipViolation, st, v)

/-- `Vector.clone` (lines 97-101): allocate a fresh owned vector of the
same length (`Vector.__init__` with `UNDEFINED` contents, modelled as
zeros), then `CopyFromVec` overwrites it with the contents of the
source. -/
def Vector.clone (st : Store) (v : Vector) : Store × Vector :=
  match st.alloc (List.replicate v.len 0) with
  | (st1, b) =>
      let st2 := st1.writeBuf b (Vector.data st1 v)
      (st2, ⟨b, 0, v.len, true⟩)

/-- `Vector.equal` (lines 114-116) delegates to `ApproxEqualVector`.
Modelled from the spec: the check returns true exactly when the lengths
match and every corresponding element pair differs by at most `tol`, and
returns false (never an error) on a length mismatch. -/
def Vector.equal (st : Store) (a b : Vector) (tol : ℚ) : Bool :=
  (a.len == b.len) && ((List.range a.len).all fun i =>
    decide (|Vector.read st a i - Vector.read st b i| ≤ tol))

/-- A matrix-like construction source for `Matrix.new` (line 337): a kaldi
matrix (used as is) or a 2-D numpy float32 array (converted, sharing memory
when the layout already fits). -/
inductive MatSource where
  | mat (m : Matrix)
  | arr (a : Ndarray2)
  deriving DecidableEq

/-- Row count of the source, as the code reads it after conversion. -/
def MatSource.srcRows : MatSource → Nat
  | .mat m => m.rows
  | .arr a => a.rows

/-- Column count of the source, as the code reads it after conversion. -/
def MatSource.srcCols : MatSource → Nat
  | .mat m => m.cols
  | .arr a => a.cols

/-- The conversion step of `Matrix.new` (lines 358-364).  A kaldi matrix is
used directly, keeping its stride.  Modelled from the spec: for an ndarray
the code calls `numpy.array(obj, dtype=float32, copy=False, order=C)`,
which shares the buffer exactly when the source is already row major and
contiguous (column stride 1, row stride equal to the column count) and
otherwise copies into a fresh contiguous buffer.  Returns the store plus
the buffer id, base offset, shape and row stride of the result. -/
def MatSource.prepare (st : Store) : MatSource → Store × Nat × Int × Nat × Nat × Int
  | .mat m => (st, m.buf, (m.off : Int), m.rows, m.cols, (m.stride : Int))
  | .arr a =>
      if a.cstride = 1 ∧ a.rstride = (a.cols : Int) then
        (st, a.buf, a.off, a.rows, a.cols, a.rstride)
      else
        let p := st.alloc ((List.range (a.rows * a.cols)).map fun k =>
          npGet2At st a (k / a.cols) (k % a.cols))
        (p.1, p.2, 0, a.rows, a.cols, (a.cols : Int))

/-- `Matrix.new` (lines 336-392): convert the source, bounds check
`row_start`, `col_start`, `num_rows`, `num_cols` (omitted counts default to
the remaining extent), then build a `SubMatrix` over the converted buffer.
The handle never owns its data (line 391).  The `col_start` failure branch
(line 372) formats its error message with the undefined name `col_offset`,
so that branch actually raises NameError instead of the intended
IndexError. -/
def Matrix.new (st : Store) (obj : MatSource) (row_start col_start : Int)
    (num_rows num_cols : Option Int) : Store × Except Err Matrix :=
  match obj.prepare st with
  | (st1, buf, base, orows, ocols, rstr) =>
    if 0 ≤ row_start ∧ row_start ≤ (orows : Int) then
      if 0 ≤ col_start ∧ col_start ≤ (ocols : Int) then
        let maxRows : Int := (orows : Int) - row_start
        let maxCols : Int := (ocols : Int) - col_start
        let nr := num_rows.getD maxRows
        let nc := num_cols.getD maxCols
        if 0 ≤ nr ∧ nr ≤ maxRows then
          if 0 ≤ nc ∧ nc ≤ maxCols then
            (st1, .ok ⟨buf, (base + row_start * rstr + col_start).toNat,
              nr.toNat, nc.toNat, rstr.toNat, false⟩)
          else (st1, .error .bounds)
        else (st1, .error .bounds)
      else (st1, .error .nameError)
    else (st1, .error .bounds)

/-- `Matrix.__init__` (lines 312-334) with already-integer arguments:
giving only one dimension is a value error; a mixed zero/positive pair is
rejected (the code raises TypeError, a construction argument condition the
specification taxonomy files under `valueConstraint`); otherwise an owning
matrix of the requested shape is allocated (`UNDEFINED` contents modelled
as zeros). -/
def Matrix.init (st : Store) (num_rows num_cols : Option Int) :
    Store × Except Err Matrix :=
  match num_rows, num_cols with
  | none, none =>
      match st.alloc [] with
      | (st1, b) => (st1, .ok ⟨b, 0, 0, 0, 0, true⟩)
  | some r, some c =>
      if 0 < r ∧ 0 < c then
        match st.alloc (List.replicate (r.toNat * c.toNat) 0) with
        | (st1, b) => (st1, .ok ⟨b, 0, r.toNat, c.toNat, c.toNat, true⟩)
      else
        if r = 0 ∧ c = 0 then
          match st.alloc [] with
          | (st1, b) => (st1, .ok ⟨b, 0, 0, 0, 0, true⟩)
        else (st, .error .valueConstraint)
  | _, _ => (st, .error .valueConstraint)

/-- `Matrix.clone` (lines 394-399): allocate a fresh owned matrix of the
same shape through `Matrix.__init__`, then `CopyFromMat` overwrites it with
the contents of the source (row major, contiguous). -/
def Matrix.clone (st : Store) (m : Matrix) : Store × Except Err Matrix :=
  match Matrix.init st (some (m.rows : Int)) (some (m.cols : Int)) with
  | (st1, .error e) => (st1, .error e)
  | (st1, .ok c) =>
      (st1.writeBuf c.buf ((List.range (m.rows * m.cols)).map fun k =>
        Matrix.read st1 m (k / m.cols) (k % m.cols)), .ok c)

/-- `Matrix.resize_` (lines 436-444): only an owning handle may resize.
Modelled from the spec: the kaldi `Resize` kernel reallocates the buffer
row major with stride equal to the new column count, keeping overlapping
old data under `COPY_DATA` and otherwise filling with zeros. -/
def Matrix.resize_ (st : Store) (m : Matrix) (r c : Nat) (t : MatrixResizeType)
    (s2 : MatrixStrideType) : Option Err × Store × Matrix :=
  if m.own_data then
    let newData : List ℚ :=
      match t with
      | .COPY_DATA => (List.range (r * c)).map fun k =>
          if k / c < m.rows ∧ k % c < m.cols then Matrix.read st m (k / c) (k % c) else 0
      | _ => List.replicate (r * c) 0
    (none, st.writeBuf m.buf newData, ⟨m.buf, 0, r, c, c, true⟩)
  else (some .ownershipViolation, st, m)

/-- `Matrix.transpose_` (lines 454-460): only an owning handle may
transpose in place.  Modelled from the spec: the kaldi `Transpose` kernel
rewrites the buffer with the transposed contents and swaps the shape. -/
def Matrix.transpose_ (st : Store) (m : Matrix) : Option Err × Store × Matrix :=
  if m.own_data then
    let newData := (List.range (m.cols * m.rows)).map fun k =>
      Matrix.read st m (k % m.rows) (k / m.rows)
    (none, st.writeBuf m.buf newData, ⟨m.buf, 0, m.cols, m.rows, m.rows, true⟩)
  else (some .ownershipViolation, st, m)

/-- `Matrix.swap_` (lines 446-452): both handles must own their data;
modelled from the spec: the kaldi `Swap` kernel exchanges the buffer
pointers and shape metadata (the Python `own_data` attribute stays with
each wrapper object). -/
def Matrix.swap_ (st : Store) (m w : Matrix) : Option Err × Store × Matrix × Matrix :=
  if m.own_data && w.own_data then
    (none, st, ⟨w.buf, w.off, w.rows, w.cols, w.stride, m.own_data⟩,
      ⟨m.buf, m.off, m.rows, m.cols, m.stride, w.own_data⟩)
  else (some .ownershipViolation, st, m, w)

/-- `Matrix.__delitem__` (lines 516-522): only an owning handle may remove
a row.  Modelled from the spec: the kaldi `RemoveRow` kernel shifts the
following rows up and shrinks the row count, after a bounds check. -/
def Matrix.delitem (st : Store) (m : Matrix) (i : Int) : Option Err × Store × Matrix :=
  if m.own_data then
    if 0 ≤ i ∧ i < (m.rows : Int) then
      (none, st.writeBuf m.buf ((List.range ((m.rows - 1) * m.cols)).map fun k =>
          let r := k / m.cols
          Matrix.read st m (if r < i.toNat then r else r + 1) (k % m.cols)),
        ⟨m.buf, 0, m.rows - 1, m.cols, m.cols, true⟩)
    else (some .bounds, st, m)
  else (some .ownershipViolation, st, m)

/-- `Matrix.equal` (lines 424-426) delegates to `ApproxEqualMatrix`.
Modelled from the spec: the check returns true exactly when the shapes
match and every corresponding element pair differs by at most `tol`, and
returns false (never an error) on a shape mismatch. -/
def Matrix.equal (st : Store) (a b : Matrix) (tol : ℚ) : Bool :=
  (a.rows == b.rows) && (a.cols == b.cols) && ((List.range a.rows).all fun i =>
    (List.range a.cols).all fun j =>
      decide (|Matrix.read st a i j - Matrix.read st b i j| ≤ tol))

/-- One axis of a `Matrix.__getitem__` index: an integer or a slice (the
combinations the claim enumerates). -/
inductive MIndex1 where
  | int (i : Int)
  | slice (s : PySlice)
  deriving DecidableEq

/-- The value numpy basic indexing hands back to `Matrix.__getitem__`: a
float32 scalar, a 1-D array, a 2-D array, or some other object (the code
treats the last case as a type error). -/
inductive NpRet where
  | scalar (x : ℚ)
  | a1 (a : Ndarray1)
  | a2 (a : Ndarray2)
  | obj
  deriving DecidableEq

/-- Modelled from the spec: numpy basic indexing of a 2-D array with one
index per axis.  Two integers give a scalar (negative indices wrap, then a
bounds check); an integer and a slice give a 1-D strided view of the
selected row or column; two slices give a 2-D strided view. -/
def npGet2 (st : Store) (a : Ndarray2) : MIndex1 × MIndex1 → Except Err NpRet
  | (.int i, .int j) =>
      let i2 := if i < 0 then i + (a.rows : Int) else i
      let j2 := if j < 0 then j + (a.cols : Int) else j
      if (0 ≤ i2 ∧ i2 < (a.rows : Int)) ∧ (0 ≤ j2 ∧ j2 < (a.cols : Int)) then
        .ok (.scalar (readBuf st a.buf (a.off + i2 * a.rstride + j2 * a.cstride)))
      else .error .bounds
  | (.int i, .slice s) =>
      let i2 := if i < 0 then i + (a.rows : Int) else i
      if 0 ≤ i2 ∧ i2 < (a.rows : Int) then
        match sliceIndices s (a.cols : Int) with
        | .error e => .error e
        | .ok q => .ok (.a1 ⟨a.buf, a.off + i2 * a.rstride + q.start * a.cstride,
            a.cstride * q.step, q.len.toNat⟩)
      else .error .bounds
  | (.slice s, .int j) =>
      let j2 := if j < 0 then j + (a.cols : Int) else j
      if 0 ≤ j2 ∧ j2 < (a.cols : Int) then
        match sliceIndices s (a.rows : Int) with
        | .error e => .error e
        | .ok q => .ok (.a1 ⟨a.buf, a.off + q.start * a.rstride + j2 * a.cstride,
            a.rstride * q.step, q.len.toNat⟩)
      else .error .bounds
  | (.slice s, .slice t) =>
      match sliceIndices s (a.rows : Int), sliceIndices t (a.cols : Int) with
      | .ok q, .ok r =>
          .ok (.a2 ⟨a.buf, a.off + q.start * a.rstride + r.start * a.cstride,
            q.len.toNat, r.len.toNat, a.rstride * q.step, a.cstride * r.step⟩)
      | .error e, _ => .error e
      | .ok _, .error e => .error e

/-- Result of `Matrix.__getitem__`: a float, a vector handle, a matrix
handle, or nothing (the code falls through without returning for an
ndarray of any other rank). -/
inductive MGetResult where
  | scalar (x : ℚ)
  | vec (v : Vector)
  | mat (m : Matrix)
  | nothing
  deriving DecidableEq

/-- The dispatch of `Matrix.__getitem__` on the value numpy returned
(lines 494-504): a 2-D array is rewrapped with `Matrix.new`, a 1-D array
with `Vector.new`, a float32 scalar becomes a float, and any other object
is a type error. -/
def matDispatch (st : Store) : NpRet → Store × Except Err MGetResult
  | .a2 a =>
      match Matrix.new st (.arr a) 0 0 none none with
      | (st1, .ok mm) => (st1, .ok (.mat mm))
      | (st1, .error e) => (st1, .error e)
  | .a1 a =>
      match Vector.new st (.arr a) 0 none with
      | (st1, .ok v) => (st1, .ok (.vec v))
      | (st1, .error e) => (st1, .error e)
  | .scalar x => (st, .ok (.scalar x))
  | .obj => (st, .error .typeMismatch)

/-- `Matrix.__getitem__` (lines 462-504) for one index per axis: offload to
numpy, then dispatch on the type and rank of the result. -/
def Matrix.getitem (st : Store) (m : Matrix) (idx : MIndex1 × MIndex1) :
    Store × Except Err MGetResult :=
  match npGet2 st (Matrix.numpy m) idx with
  | .error e => (st, .error e)
  | .ok r => matDispatch st r

/-- Sample store: one buffer holding the vector 1..5. -/
def st5 : Store := ⟨[[1, 2, 3, 4, 5]]⟩

/-- Sample owning vector over the whole buffer of `st5`. -/
def hOwn : Vector := ⟨0, 0, 5, true⟩

/-- Sample non-owning vector view into the buffer of `st5`. -/
def vView : Vector := ⟨0, 1, 3, false⟩

/-- Sample store: one buffer holding 1..6, read as a 2 by 3 matrix. -/
def st6 : Store := ⟨[[1, 2, 3, 4, 5, 6]]⟩

/-- Sample owning 2 by 3 matrix over the buffer of `st6`. -/
def mOwn : Matrix := ⟨0, 0, 2, 3, 3, true⟩

/-- Sample non-owning 2 by 3 matrix view over the buffer of `st6`. -/
def mView : Matrix := ⟨0, 0, 2, 3, 3, false⟩

/-- The handle `Vector.new st5 (.vec hOwn) 0 none` returns. -/
def vFull : Vector := ⟨0, 0, 5, false⟩

/-- The handle `Matrix.new st6 (.mat mOwn) 0 0 none none` returns. -/
def mFull : Matrix := ⟨0, 0, 2, 3, 3, false⟩

/-- Sample non-owning 1 by 3 matrix view over the buffer of `st6`. -/
def mRow : Matrix := ⟨0, 0, 1, 3, 3, false⟩

/-! ### List helper lemmas -/

theorem getD_append_lt {α : Type} (l m : List α) (b : Nat) (d : α)
    (h : b < l.length) : (l ++ m).getD b d = l.getD b d := by
  simp [List.getD_eq_getElem?_getD, List.getElem?_append_left h]

theorem getD_set_eq {α : Type} (l : List α) (i : Nat) (x d : α)
    (h : i < l.length) : (l.set i x).getD i d = x := by
  simp [List.getD_eq_getElem?_getD, List.getElem?_set_self, h]

theorem getD_set_ne {α : Type} (l : List α) (i j : Nat) (x d : α)
    (h : i ≠ j) : (l.set i x).getD j d = l.getD j d := by
  simp [List.getD_eq_getElem?_getD, List.getElem?_set_ne h]

theorem getD_map_range {α : Type} (f : Nat → α) (n k : Nat) (d : α)
    (h : k < n) : ((List.range n).map f).getD k d = f k := by
  simp [List.getD_eq_getElem?_getD, List.getElem?_map, List.getElem?_range h]

/-! ### Store framing lemmas -/

theorem Store.length_writeBuf (st : Store) (b : Nat) (xs : List ℚ) :
    (st.writeBuf b xs).bufs.length = st.bufs.length := by
  simp [Store.writeBuf]

theorem Store.length_alloc (st : Store) (xs : List ℚ) :
    (st.alloc xs).1.bufs.length = st.bufs.length + 1 := by
  simp [Store.alloc]

theorem Store.get_writeBuf_self (st : Store) (b : Nat) (xs : List ℚ)
    (h : b < st.bufs.length) : Store.get (st.writeBuf b xs) b = xs := by
  simp [Store.get, Store.writeBuf, List.getElem?_set_self, h]

theorem Store.get_writeBuf_ne (st : Store) (b b2 : Nat) (xs : List ℚ)
    (h : b ≠ b2) : Store.get (st.writeBuf b xs) b2 = Store.get st b2 := by
  simp [Store.get, Store.writeBuf, List.getElem?_set_ne h]

theorem Store.get_alloc_lt (st : Store) (xs : List ℚ) (b2 : Nat)
    (h : b2 < st.bufs.length) : Store.get (st.alloc xs).1 b2 = Store.get st b2 := by
  simp [Store.get, Store.alloc, List.getElem?_append_left h]

theorem Store.get_alloc_self (st : Store) (xs : List ℚ) :
    Store.get (st.alloc xs).1 st.bufs.length = xs := by
  simp [Store.get, Store.alloc, List.getD_eq_getElem?_getD,
    List.getElem?_append_right (Nat.le_refl _)]

theorem vecData_congr (st st2 : Store) (v : Vector)
    (h : Store.get st2 v.buf = Store.get st v.buf) :
    Vector.data st2 v = Vector.data st v := by
  simp [Vector.data, h]

theorem vecRead_congr (st st2 : Store) (v : Vector) (i : Nat)
    (h : Store.get st2 v.buf = Store.get st v.buf) :
    Vector.read st2 v i = Vector.read st v i := by
  simp [Vector.read, h]

theorem matData_congr (st st2 : Store) (m : Matrix)
    (h : Store.get st2 m.buf = Store.get st m.buf) :
    Matrix.data st2 m = Matrix.data st m := by
  simp [Matrix.data, Matrix.read, h]

theorem Vector.length_data (st : Store) (v : Vector) (h : Vector.valid st v) :
    (Vector.data st v).length = v.len := by
  simp [Vector.data, Vector.valid] at *
  omega

/-! ### Bounds of a resolved slice

Every index selected by a resolved slice with a positive element count lies
inside `[0, n)`; in particular the first selected index is nonnegative. -/

theorem clampIdx_mem (v lower upper n : Int) (h1 : lower ≤ upper) (h2 : lower ≤ 0)
    (h3 : n - 1 ≤ upper) :
    lower ≤ clampIdx v lower upper n ∧ clampIdx v lower upper n ≤ upper := by
  simp only [clampIdx]
  split_ifs <;> omega

theorem resolveEndpoint_mem (e : Option Int) (dflt lower upper n : Int)
    (hd1 : lower ≤ dflt) (hd2 : dflt ≤ upper) (h1 : lower ≤ upper) (h2 : lower ≤ 0)
    (h3 : n - 1 ≤ upper) :
    lower ≤ resolveEndpoint e dflt lower upper n ∧
      resolveEndpoint e dflt lower upper n ≤ upper := by
  cases e with
  | none => exact ⟨hd1, hd2⟩
  | some v => exact clampIdx_mem v lower upper n h1 h2 h3

theorem sliceLen_bounds (start stop g n i lower upper : Int) (hg : g ≠ 0)
    (hlow : lower = if g < 0 then -1 else 0)
    (hupp : upper = if g < 0 then n - 1 else n)
    (hs1 : lower ≤ start) (hs2 : start ≤ upper)
    (ht1 : lower ≤ stop) (ht2 : stop ≤ upper)
    (h0 : 0 ≤ i) (hi : i < sliceLen start stop g) :
    0 ≤ start ∧ 0 ≤ start + i * g ∧ start + i * g < n := by
  subst hlow hupp
  simp only [sliceLen] at hi
  by_cases hgpos : 0 < g
  · rw [if_pos hgpos] at hi
    rw [if_neg (by omega : ¬ g < 0)] at hs1 hs2 ht1 ht2
    by_cases hlt : start < stop
    · rw [if_pos hlt] at hi
      have hig : i * g ≤ stop - start - 1 :=
        (Int.le_ediv_iff_mul_le hgpos).mp (by omega)
      have hnn : 0 ≤ i * g := mul_nonneg h0 (le_of_lt hgpos)
      exact ⟨hs1, by omega, by omega⟩
    · rw [if_neg hlt] at hi; omega
  · have hgneg : g < 0 := by omega
    rw [if_neg hgpos] at hi
    rw [if_pos hgneg] at hs1 hs2 ht1 ht2
    by_cases hlt : stop < start
    · rw [if_pos hlt] at hi
      have hig : i * (-g) ≤ start - stop - 1 :=
        (Int.le_ediv_iff_mul_le (by omega : (0 : Int) < -g)).mp (by omega)
      have hr : i * (-g) = -(i * g) := by ring
      have hnp : i * g ≤ 0 := mul_nonpos_of_nonneg_of_nonpos h0 (le_of_lt hgneg)
      exact ⟨by omega, by omega, by omega⟩
    · rw [if_neg hlt] at hi; omega

theorem sliceIndices_bounds (s : PySlice) (n : Int) (q : SliceInfo) (hn : 0 ≤ n)
    (hok : sliceIndices s n = .ok q) (i : Int) (h0 : 0 ≤ i) (hi : i < q.len) :
    q.step ≠ 0 ∧ 0 ≤ q.start ∧ 0 ≤ q.start + i * q.step ∧
      q.start + i * q.step < n := by
  simp only [sliceIndices] at hok
  by_cases hz : s.step.getD 1 = 0
  · rw [if_pos hz] at hok; cases hok
  · rw [if_neg hz] at hok
    rw [Except.ok.injEq] at hok
    subst hok
    dsimp only at hi ⊢
    set g := s.step.getD 1 with hgdef
    set lower : Int := if g < 0 then -1 else 0 with hlow
    set upper : Int := if g < 0 then n - 1 else n with hupp
    have h1 : lower ≤ upper := by rw [hlow, hupp]; split_ifs <;> omega
    have h2 : lower ≤ 0 := by rw [hlow]; split_ifs <;> omega
    have h3 : n - 1 ≤ upper := by rw [hupp]; split_ifs <;> omega
    have hd : lower ≤ (if g < 0 then upper else lower) ∧
        (if g < 0 then upper else lower) ≤ upper := by split_ifs <;> omega
    have hd2 : lower ≤ (if g < 0 then lower else upper) ∧
        (if g < 0 then lower else upper) ≤ upper := by split_ifs <;> omega
    have hmem1 := resolveEndpoint_mem s.start _ lower upper n hd.1 hd.2 h1 h2 h3
    have hmem2 := resolveEndpoint_mem s.stop _ lower upper n hd2.1 hd2.2 h1 h2 h3
    refine ⟨hz, ?_⟩
    exact sliceLen_bounds _ _ g n i lower upper hz hlow hupp
      hmem1.1 hmem1.2 hmem2.1 hmem2.2 h0 hi

/-! ### Evaluation lemmas for the wrapper operations -/

theorem Vector.setitemInt_nat (st : Store) (v : Vector) (i : Nat) (x : ℚ)
    (h : i < v.len) :
    Vector.setitemInt st v (i : Int) x = (none, st.setBuf v.buf (v.off + i) x) := by
  simp only [Vector.setitemInt]
  rw [if_neg (by omega : ¬ ((i : Int) < 0))]
  rw [if_pos (by constructor <;> omega)]
  simp

theorem Vector.new_arr_full (st : Store) (a : Ndarray1) :
    Vector.new st (.arr a) 0 none =
      if a.step = 1 then (st, .ok ⟨a.buf, a.off.toNat, a.len, false⟩)
      else ((st.alloc ((List.range a.len).map fun k => npGet st a k)).1,
        .ok ⟨(st.alloc ((List.range a.len).map fun k => npGet st a k)).2,
          0, a.len, false⟩) := by
  by_cases hstep : a.step = 1 <;>
    simp [Vector.new, VecSource.prepare, hstep, Int.natCast_nonneg]

/-- C1: writing an element through a slice handle taken from an owning
vector handle is observable through the parent at the corresponding offset
exactly when the resolved slice step is 1; a slice with any other step is
materialized as a private copy, so the write leaves the parent handle
untouched. -/
theorem C1_slice_write_aliasing
    (st : Store) (h : Vector) (how : Vector.owning st h)
    (R : PySlice) (q : SliceInfo)
    (hind : sliceIndices R (h.len : Int) = .ok q)
    (i : Nat) (hi : (i : Int) < q.len) (x : ℚ)
    (hx : x ≠ readBuf st h.buf (q.start + i * q.step)) :
    ∃ st1 V, Vector.getitem st h (.slice R) = (st1, .ok (.vec V)) ∧
      V.len = q.len.toNat ∧
      ((readBuf (Vector.setitemInt st1 V (i : Int) x).2 h.buf
          (q.start + i * q.step) = x) ↔ q.step = 1) ∧
      (q.step ≠ 1 →
        Vector.data (Vector.setitemInt st1 V (i : Int) x).2 h = Vector.data st h) := by
  obtain ⟨hown, hoff, hblt, hlen⟩ := how
  obtain ⟨hg0, hstart0, hpos0, hposlt⟩ :=
    sliceIndices_bounds R (h.len : Int) q (Int.natCast_nonneg _) hind
      (i : Int) (Int.natCast_nonneg _) hi
  have hA : Ndarray1.getSlice (Vector.numpy h) R =
      .ok ⟨h.buf, q.start, q.step, q.len.toNat⟩ := by
    simp [Ndarray1.getSlice, Vector.numpy, hind, hoff]
  have hilen : i < q.len.toNat := by omega
  simp only [Vector.getitem, hA]
  by_cases hstep : q.step = 1
  · rw [Vector.new_arr_full, if_pos hstep]
    refine ⟨st, _, rfl, rfl, ?_, fun hc => absurd hstep hc⟩
    rw [Vector.setitemInt_nat _ _ _ _ hilen]
    have hcalc : readBuf (st.setBuf h.buf (q.start.toNat + i) x) h.buf
        (q.start + (i : Int) * q.step) = x := by
      rw [hstep]
      have hidx : (q.start + (i : Int) * 1).toNat = q.start.toNat + i := by omega
      rw [readBuf, hidx, Store.setBuf, Store.get_writeBuf_self _ _ _ hblt]
      exact getD_set_eq _ _ _ _ (by rw [hstep] at hposlt; omega)
    exact iff_of_true hcalc hstep
  · rw [Vector.new_arr_full, if_neg hstep]
    refine ⟨_, _, rfl, rfl, ?_, fun _ => ?_⟩
    all_goals
      rw [Vector.setitemInt_nat _ _ _ _ hilen]
      have hne : (st.alloc ((List.range q.len.toNat).map fun k =>
          npGet st ⟨h.buf, q.start, q.step, q.len.toNat⟩ k)).2 ≠ h.buf := by
        simp only [Store.alloc]; omega
      have hget : Store.get ((st.alloc ((List.range q.len.toNat).map fun k =>
            npGet st ⟨h.buf, q.start, q.step, q.len.toNat⟩ k)).1.setBuf
            ((st.alloc ((List.range q.len.toNat).map fun k =>
              npGet st ⟨h.buf, q.start, q.step, q.len.toNat⟩ k)).2) (0 + i) x)
            h.buf = Store.get st h.buf := by
        rw [Store.setBuf, Store.get_writeBuf_ne _ _ _ _ hne,
          Store.get_alloc_lt _ _ _ hblt]
    · refine iff_of_false (fun he => ?_) hstep
      rw [readBuf, hget, ← readBuf] at he
      exact hx he.symm
    · exact vecData_congr _ _ _ hget

/-- Witness for C1 at a concrete input: the contiguous slice `[1:4]` of the
owned vector `[1, 2, 3, 4, 5]`. -/
theorem C1_witness :
    Vector.owning st5 hOwn ∧
    sliceIndices ⟨some 1, some 4, none⟩ ((hOwn.len : Nat) : Int) = .ok ⟨1, 3, 1⟩ ∧
    (99 : ℚ) ≠ readBuf st5 hOwn.buf (1 + ((0 : Nat) : Int) * 1) ∧
    (∃ st1 V, Vector.getitem st5 hOwn (.slice ⟨some 1, some 4, none⟩) =
        (st1, .ok (.vec V)) ∧
      V.len = (3 : Int).toNat ∧
      ((readBuf (Vector.setitemInt st1 V ((0 : Nat) : Int) 99).2 hOwn.buf
          (1 + ((0 : Nat) : Int) * 1) = 99) ↔ (1 : Int) = 1) ∧
      ((1 : Int) ≠ 1 →
        Vector.data (Vector.setitemInt st1 V ((0 : Nat) : Int) 99).2 hOwn =
          Vector.data st5 hOwn)) :=
  ⟨⟨rfl, rfl, by decide, by decide⟩, by rfl, by decide,
    C1_slice_write_aliasing st5 hOwn ⟨rfl, rfl, by decide, by decide⟩
      ⟨some 1, some 4, none⟩ ⟨1, 3, 1⟩ (by rfl) 0 (by decide) 99 (by decide)⟩

/-- C2: every structural mutation on a handle that does not own its data
fails with the ownership violation error and returns the store and the
handles unchanged. -/
theorem C2_ownership_gating :
    (∀ st (v : Vector) n t, v.own_data = false →
      Vector.resize_ st v n t = (some .ownershipViolation, st, v)) ∧
    (∀ st (v w : Vector), v.own_data = false →
      Vector.swap_ st v w = (some .ownershipViolation, st, v, w)) ∧
    (∀ st (v : Vector) i, v.own_data = false →
      Vector.delitem st v i = (some .ownershipViolation, st, v)) ∧
    (∀ st (m : Matrix) r c t s2, m.own_data = false →
      Matrix.resize_ st m r c t s2 = (some .ownershipViolation, st, m)) ∧
    (∀ st (m : Matrix), m.own_data = false →
      Matrix.transpose_ st m = (some .ownershipViolation, st, m)) ∧
    (∀ st (m w : Matrix), m.own_data = false →
      Matrix.swap_ st m w = (some .ownershipViolation, st, m, w)) ∧
    (∀ st (m : Matrix) i, m.own_data = false →
      Matrix.delitem st m i = (some .ownershipViolation, st, m)) := by
  refine ⟨?_, ?_, ?_, ?_, ?_, ?_, ?_⟩ <;> intros <;>
    simp_all [Vector.resize_, Vector.swap_, Vector.delitem,
      Matrix.resize_, Matrix.transpose_, Matrix.swap_, Matrix.delitem]

/-- Witness for C2: the non-owning views `vView` and `mView`. -/
theorem C2_witness :
    vView.own_data = false ∧ mView.own_data = false ∧
    Vector.resize_ st5 vView 7 .SET_ZERO = (some .ownershipViolation, st5, vView) ∧
    Vector.swap_ st5 vView hOwn = (some .ownershipViolation, st5, vView, hOwn) ∧
    Vector.delitem st5 vView 0 = (some .ownershipViolation, st5, vView) ∧
    Matrix.resize_ st6 mView 1 1 .SET_ZERO .DEFAULT =
      (some .ownershipViolation, st6, mView) ∧
    Matrix.transpose_ st6 mView = (some .ownershipViolation, st6, mView) ∧
    Matrix.swap_ st6 mView mOwn = (some .ownershipViolation, st6, mView, mOwn) ∧
    Matrix.delitem st6 mView 0 = (some .ownershipViolation, st6, mView) :=
  ⟨rfl, rfl,
    C2_ownership_gating.1 st5 vView 7 .SET_ZERO rfl,
    C2_ownership_gating.2.1 st5 vView hOwn rfl,
    C2_ownership_gating.2.2.1 st5 vView 0 rfl,
    C2_ownership_gating.2.2.2.1 st6 mView 1 1 .SET_ZERO .DEFAULT rfl,
    C2_ownership_gating.2.2.2.2.1 st6 mView rfl,
    C2_ownership_gating.2.2.2.2.2.1 st6 mView mOwn rfl,
    C2_ownership_gating.2.2.2.2.2.2 st6 mView 0 rfl⟩

/-- C3: every handle `Vector.new` or `Matrix.new` returns has
`own_data = false`, also on the internally copying paths, so resizing such
a handle always fails with the ownership violation error. -/
theorem C3_new_not_owning :
    (∀ st obj s l st1 (v : Vector), Vector.new st obj s l = (st1, .ok v) →
      v.own_data = false ∧ ∀ n t,
        Vector.resize_ st1 v n t = (some .ownershipViolation, st1, v)) ∧
    (∀ st obj rs cs nr nc st1 (m : Matrix),
      Matrix.new st obj rs cs nr nc = (st1, .ok m) →
      m.own_data = false ∧ ∀ r c t s2,
        Matrix.resize_ st1 m r c t s2 = (some .ownershipViolation, st1, m)) := by
  constructor
  · intro st obj s l st1 v hok
    have hod : v.own_data = false := by
      simp only [Vector.new] at hok
      repeat' split at hok
      all_goals simp_all
      all_goals (obtain ⟨-, hv⟩ := hok; exact hv ▸ rfl)
    exact ⟨hod, fun n t => by simp [Vector.resize_, hod]⟩
  · intro st obj rs cs nr nc st1 m hok
    have hod : m.own_data = false := by
      simp only [Matrix.new] at hok
      repeat' split at hok
      all_goals simp_all
      all_goals (obtain ⟨-, hv⟩ := hok; exact hv ▸ rfl)
    exact ⟨hod, fun r c t s2 => by simp [Matrix.resize_, hod]⟩

/-- Witness for C3: full-range views of `hOwn` and `mOwn`. -/
theorem C3_witness :
    Vector.new st5 (.vec hOwn) 0 none = (st5, .ok vFull) ∧
    Matrix.new st6 (.mat mOwn) 0 0 none none = (st6, .ok mFull) ∧
    vFull.own_data = false ∧
    Vector.resize_ st5 vFull 9 .SET_ZERO = (some .ownershipViolation, st5, vFull) ∧
    mFull.own_data = false ∧
    Matrix.resize_ st6 mFull 1 1 .SET_ZERO .DEFAULT =
      (some .ownershipViolation, st6, mFull) :=
  ⟨by rfl, by rfl,
    (C3_new_not_owning.1 st5 (.vec hOwn) 0 none st5 vFull (by rfl)).1,
    (C3_new_not_owning.1 st5 (.vec hOwn) 0 none st5 vFull (by rfl)).2 9 .SET_ZERO,
    (C3_new_not_owning.2 st6 (.mat mOwn) 0 0 none none st6 mFull (by rfl)).1,
    (C3_new_not_owning.2 st6 (.mat mOwn) 0 0 none none st6 mFull
      (by rfl)).2 1 1 .SET_ZERO .DEFAULT⟩

/-- C4 (code bug): the `col_start` failure branch of `Matrix.new` formats
its error message with the undefined name `col_offset` (line 372), so an
out-of-range `col_start` raises NameError instead of the IndexError (the
bounds error of the claim); the vector side of the claim is right: for an
already-kaldi source and a given length, `Vector.new` fails with the
bounds error exactly under the condition the claim states. -/
theorem C4_matrix_new_col_start_name_error :
    (∀ st (v : Vector) (s l : Int),
      (Vector.new st (.vec v) s (some l)).2 = .error .bounds ↔
        (s < 0 ∨ s > (v.len : Int) ∨ l < 0 ∨ l > (v.len : Int) - s)) ∧
    (Matrix.new st6 (.mat mOwn) 0 5 none none).2 = .error .nameError ∧
    Err.nameError ≠ Err.bounds := by
  refine ⟨?_, by rfl, by decide⟩
  intro st v s l
  simp only [Vector.new, VecSource.prepare, Option.getD_some]
  split_ifs with h1 h2 <;> simp <;> omega

/-- Witness for C4: a negative `start` is a bounds error for `Vector.new`,
while an out-of-range `col_start` makes `Matrix.new` trip over the
undefined name instead of reporting a bounds error. -/
theorem C4_witness :
    (Vector.new st5 (.vec hOwn) (-1) (some 2)).2 = .error .bounds ∧
    (Matrix.new st6 (.mat mOwn) 0 5 none none).2 = .error .nameError :=
  ⟨(C4_matrix_new_col_start_name_error.1 st5 hOwn (-1) 2).mpr
      (Or.inl (by decide)),
    C4_matrix_new_col_start_name_error.2.1⟩

/-- C6: the tolerance equality of vectors and matrices returns true exactly
when the shapes match and all corresponding elements differ by at most
`tol`, and returns false, never an error, on a shape mismatch. -/
theorem C6_equal_tolerance :
    (∀ st (a b : Vector) (tol : ℚ),
      (Vector.equal st a b tol = true ↔
        (a.len = b.len ∧ ∀ i, i < a.len →
          |Vector.read st a i - Vector.read st b i| ≤ tol)) ∧
      (a.len ≠ b.len → Vector.equal st a b tol = false)) ∧
    (∀ st (a b : Matrix) (tol : ℚ),
      (Matrix.equal st a b tol = true ↔
        (a.rows = b.rows ∧ a.cols = b.cols ∧ ∀ i j, i < a.rows → j < a.cols →
          |Matrix.read st a i j - Matrix.read st b i j| ≤ tol)) ∧
      ((a.rows ≠ b.rows ∨ a.cols ≠ b.cols) → Matrix.equal st a b tol = false)) := by
  constructor
  · intro st a b tol
    constructor
    · simp [Vector.equal, List.all_eq_true, List.mem_range]
    · intro hne
      simp [Vector.equal, hne]
  · intro st a b tol
    constructor
    · simp [Matrix.equal, List.all_eq_true, List.mem_range]
      tauto
    · intro hne
      rcases hne with hne | hne <;> simp [Matrix.equal, hne]

/-- Witness for C6: views of different shapes compare unequal without an
error, through the theorem. -/
theorem C6_witness :
    vView.len ≠ hOwn.len ∧
    Vector.equal st5 vView hOwn 0 = false ∧
    (mRow.rows ≠ mOwn.rows ∨ mRow.cols ≠ mOwn.cols) ∧
    Matrix.equal st6 mRow mOwn 0 = false :=
  ⟨by decide,
    (C6_equal_tolerance.1 st5 vView hOwn 0).2 (by decide),
    by decide,
    (C6_equal_tolerance.2 st6 mRow mOwn 0).2 (by decide)⟩

/-- C7: constructing a matrix with integer dimensions fails with the
construction argument error exactly when the pair mixes zero and nonzero
(or is otherwise not both positive nor both zero), and succeeds
otherwise. -/
theorem C7_matrix_init_validation :
    ∀ st (r c : Int),
      ((Matrix.init st (some r) (some c)).2 = .error .valueConstraint ↔
        ¬((0 < r ∧ 0 < c) ∨ (r = 0 ∧ c = 0))) ∧
      (((0 < r ∧ 0 < c) ∨ (r = 0 ∧ c = 0)) →
        ∃ m, (Matrix.init st (some r) (some c)).2 = .ok m) := by
  intro st r c
  constructor
  · simp only [Matrix.init]
    split_ifs with h1 h2 <;> simp <;> omega
  · intro hvalid
    simp only [Matrix.init]
    split_ifs with h1 h2
    · exact ⟨_, rfl⟩
    · exact ⟨_, rfl⟩
    · omega

/-- Witness for C7: `Matrix(3, 0)` is rejected and `Matrix(2, 2)` is
accepted. -/
theorem C7_witness :
    (Matrix.init st6 (some 3) (some 0)).2 = .error .valueConstraint ∧
    ∃ m, (Matrix.init st6 (some 2) (some 2)).2 = .ok m :=
  ⟨(C7_matrix_init_validation st6 3 0).1.mpr (by decide),
    (C7_matrix_init_validation st6 2 2).2 (Or.inl (by decide))⟩

/-- C9: vector indexing returns a float for an in-range integer index, a
new vector handle for any slice, and a type error for any other index. -/
theorem C9_vector_getitem_kinds :
    (∀ st (v : Vector) (i : Int), 0 ≤ i → i < (v.len : Int) →
      Vector.getitem st v (.int i) =
        (st, .ok (.scalar (Vector.read st v i.toNat)))) ∧
    (∀ st (v : Vector) (s : PySlice) q, sliceIndices s (v.len : Int) = .ok q →
      ∃ st1 w, Vector.getitem st v (.slice s) = (st1, .ok (.vec w))) ∧
    (∀ st (v : Vector), Vector.getitem st v .other = (st, .error .typeMismatch)) := by
  refine ⟨?_, ?_, ?_⟩
  · intro st v i h1 h2
    simp [Vector.getitem, h1, h2]
  · intro st v s q hok
    have hA : Ndarray1.getSlice (Vector.numpy v) s =
        .ok ⟨v.buf, (v.off : Int) + q.start, q.step, q.len.toNat⟩ := by
      simp [Ndarray1.getSlice, Vector.numpy, hok]
    simp only [Vector.getitem, hA]
    rw [Vector.new_arr_full]
    split_ifs <;> exact ⟨_, _, rfl⟩
  · intro st v
    rfl

/-- Witness for C9: the owned vector `[1, 2, 3, 4, 5]`, indexed with the
integer 2, with the stride 2 slice `[::2]`, and with an unsupported index
kind. -/
theorem C9_witness :
    (0 : Int) ≤ 2 ∧ (2 : Int) < (hOwn.len : Int) ∧
    Vector.getitem st5 hOwn (.int 2) =
      (st5, .ok (.scalar (Vector.read st5 hOwn (2 : Int).toNat))) ∧
    sliceIndices ⟨none, none, some 2⟩ (hOwn.len : Int) = .ok ⟨0, 3, 2⟩ ∧
    (∃ st1 w, Vector.getitem st5 hOwn (.slice ⟨none, none, some 2⟩) =
      (st1, .ok (.vec w))) ∧
    Vector.getitem st5 hOwn .other = (st5, .error .typeMismatch) :=
  ⟨by decide, by decide,
    C9_vector_getitem_kinds.1 st5 hOwn 2 (by decide) (by decide),
    by rfl,
    C9_vector_getitem_kinds.2.1 st5 hOwn ⟨none, none, some 2⟩ ⟨0, 3, 2⟩ (by rfl),
    C9_vector_getitem_kinds.2.2 st5 hOwn⟩

/-- Shape of the handle `Matrix.new` builds over a full 2-D ndarray: the
construction succeeds on both the sharing and the copying path and keeps
the shape of the source array. -/
theorem Matrix.new_arr_shape (st : Store) (a : Ndarray2) :
    ∃ st1 m, Matrix.new st (.arr a) 0 0 none none = (st1, .ok m) ∧
      m.rows = a.rows ∧ m.cols = a.cols ∧ m.own_data = false := by
  by_cases hc : a.cstride = 1 ∧ a.rstride = (a.cols : Int)
  · refine ⟨st, ⟨a.buf, a.off.toNat, a.rows, a.cols, a.rstride.toNat, false⟩,
      ?_, rfl, rfl, rfl⟩
    simp [Matrix.new, MatSource.prepare, hc, Int.natCast_nonneg]
  · refine ⟨(st.alloc ((List.range (a.rows * a.cols)).map fun k =>
        npGet2At st a (k / a.cols) (k % a.cols))).1,
      ⟨st.bufs.length, 0, a.rows, a.cols, a.cols, false⟩, ?_, rfl, rfl, rfl⟩
    simp [Matrix.new, MatSource.prepare, hc, Store.alloc, Int.natCast_nonneg]

/-- C10: view construction with start 0 and omitted length or counts always
succeeds and produces a handle whose shape equals the shape of the
(converted) source. -/
theorem C10_roundtrip_shape :
    (∀ st (obj : VecSource), ∃ st1 v,
      Vector.new st obj 0 none = (st1, .ok v) ∧ v.len = obj.srcLen) ∧
    (∀ st (obj : MatSource), ∃ st1 m,
      Matrix.new st obj 0 0 none none = (st1, .ok m) ∧
        m.rows = obj.srcRows ∧ m.cols = obj.srcCols) := by
  constructor
  · intro st obj
    cases obj with
    | vec v =>
        refine ⟨st, ⟨v.buf, v.off, v.len, false⟩, ?_, rfl⟩
        simp [Vector.new, VecSource.prepare, Int.natCast_nonneg]
    | arr a =>
        rw [Vector.new_arr_full]
        split_ifs with hstep
        · exact ⟨_, _, rfl, rfl⟩
        · exact ⟨_, _, rfl, rfl⟩
    | seq xs =>
        refine ⟨(st.alloc xs).1, ⟨st.bufs.length, 0, xs.length, false⟩, ?_, rfl⟩
        simp [Vector.new, VecSource.prepare, Store.alloc, Int.natCast_nonneg]
  · intro st obj
    cases obj with
    | mat m =>
        refine ⟨st, ⟨m.buf, m.off, m.rows, m.cols, m.stride, false⟩, ?_, rfl, rfl⟩
        simp [Matrix.new, MatSource.prepare, Int.natCast_nonneg]
    | arr a =>
        obtain ⟨st1, mm, heq, hr, hc, _⟩ := Matrix.new_arr_shape st a
        exact ⟨st1, mm, heq, hr, hc⟩

/-- C8: matrix indexing with two in-range integers yields a scalar float,
with an integer and a range a vector handle, with two ranges a matrix
handle; a returned value that is neither an ndarray nor a float32 scalar is
dispatched to a type error. -/
theorem C8_matrix_getitem_kinds :
    (∀ st (m : Matrix) (i j : Int), 0 ≤ i → i < (m.rows : Int) →
      0 ≤ j → j < (m.cols : Int) →
      ∃ x, Matrix.getitem st m (.int i, .int j) = (st, .ok (.scalar x))) ∧
    (∀ st (m : Matrix) (i : Int) (s : PySlice) q, 0 ≤ i → i < (m.rows : Int) →
      sliceIndices s (m.cols : Int) = .ok q →
      ∃ st1 v, Matrix.getitem st m (.int i, .slice s) = (st1, .ok (.vec v))) ∧
    (∀ st (m : Matrix) (j : Int) (s : PySlice) q, 0 ≤ j → j < (m.cols : Int) →
      sliceIndices s (m.rows : Int) = .ok q →
      ∃ st1 v, Matrix.getitem st m (.slice s, .int j) = (st1, .ok (.vec v))) ∧
    (∀ st (m : Matrix) (s t : PySlice) q r,
      sliceIndices s (m.rows : Int) = .ok q →
      sliceIndices t (m.cols : Int) = .ok r →
      ∃ st1 mm, Matrix.getitem st m (.slice s, .slice t) = (st1, .ok (.mat mm))) ∧
    (∀ st, matDispatch st .obj = (st, .error .typeMismatch)) := by
  refine ⟨?_, ?_, ?_, ?_, fun st => rfl⟩
  · intro st m i j h1 h2 h3 h4
    refine ⟨readBuf st m.buf ((m.off : Int) + i * (m.stride : Int) + j * 1), ?_⟩
    simp [Matrix.getitem, npGet2, Matrix.numpy, matDispatch,
      show ¬ i < 0 by omega, show ¬ j < 0 by omega, h1, h2, h3, h4]
  · intro st m i s q h1 h2 hq
    simp only [Matrix.getitem, npGet2, Matrix.numpy,
      show ¬ i < 0 by omega, if_false, hq]
    rw [if_pos ⟨h1, h2⟩]
    simp only [matDispatch]
    rw [Vector.new_arr_full]
    split_ifs <;> exact ⟨_, _, rfl⟩
  · intro st m j s q h1 h2 hq
    simp only [Matrix.getitem, npGet2, Matrix.numpy,
      show ¬ j < 0 by omega, if_false, hq]
    rw [if_pos ⟨h1, h2⟩]
    simp only [matDispatch]
    rw [Vector.new_arr_full]
    split_ifs <;> exact ⟨_, _, rfl⟩
  · intro st m s t q r hq hr
    simp only [Matrix.getitem, npGet2, Matrix.numpy, hq, hr]
    obtain ⟨st1, mm, heq, -, -, -⟩ := Matrix.new_arr_shape st
      ⟨m.buf, (m.off : Int) + q.start * (m.stride : Int) + r.start * 1,
        q.len.toNat, r.len.toNat, (m.stride : Int) * q.step, 1 * r.step⟩
    simp only [matDispatch, heq]
    exact ⟨st1, mm, rfl⟩

/-- Witness for C8: the owned 2 by 3 matrix over `[1..6]`, indexed with
`(1, 2)`, `(0, ::2)`, `(:, 1)`, `(:, ::2)`, plus the dispatch of a value of
an unexpected type. -/
theorem C8_witness :
    (∃ x, Matrix.getitem st6 mOwn (.int 1, .int 2) = (st6, .ok (.scalar x))) ∧
    (∃ st1 v, Matrix.getitem st6 mOwn (.int 0, .slice ⟨none, none, some 2⟩) =
      (st1, .ok (.vec v))) ∧
    (∃ st1 v, Matrix.getitem st6 mOwn (.slice ⟨none, none, none⟩, .int 1) =
      (st1, .ok (.vec v))) ∧
    (∃ st1 mm, Matrix.getitem st6 mOwn
      (.slice ⟨none, none, none⟩, .slice ⟨none, none, some 2⟩) =
      (st1, .ok (.mat mm))) ∧
    matDispatch st6 .obj = (st6, .error .typeMismatch) :=
  ⟨C8_matrix_getitem_kinds.1 st6 mOwn 1 2 (by decide) (by decide)
      (by decide) (by decide),
    C8_matrix_getitem_kinds.2.1 st6 mOwn 0 ⟨none, none, some 2⟩ ⟨0, 2, 2⟩
      (by decide) (by decide) (by rfl),
    C8_matrix_getitem_kinds.2.2.1 st6 mOwn 1 ⟨none, none, none⟩ ⟨0, 2, 1⟩
      (by decide) (by decide) (by rfl),
    C8_matrix_getitem_kinds.2.2.2.1 st6 mOwn ⟨none, none, none⟩
      ⟨none, none, some 2⟩ ⟨0, 2, 1⟩ ⟨0, 2, 2⟩ (by rfl) (by rfl),
    C8_matrix_getitem_kinds.2.2.2.2 st6⟩

/-! ### Helper lemmas for clone independence -/

theorem map_range_congr {α : Type} (f g : Nat → α) (n : Nat)
    (h : ∀ k, k < n → f k = g k) : (List.range n).map f = (List.range n).map g := by
  induction n with
  | zero => rfl
  | succ k ih =>
      rw [List.range_succ, List.map_append, List.map_append,
        ih (fun j hj => h j (by omega)), List.map_singleton, List.map_singleton,
        h k (by omega)]

theorem matRead_congr (st st2 : Store) (m : Matrix) (i j : Nat)
    (h : Store.get st2 m.buf = Store.get st m.buf) :
    Matrix.read st2 m i j = Matrix.read st m i j := by
  simp [Matrix.read, h]

theorem vecResize_ok (st : Store) (c : Vector) (n : Nat)
    (t : MatrixResizeType) (hc : c.own_data = true) :
    (Vector.resize_ st c n t).1 = none := by
  simp [Vector.resize_, hc]

theorem matResize_ok (st : Store) (c : Matrix) (r c2 : Nat)
    (t : MatrixResizeType) (s2 : MatrixStrideType) (hc : c.own_data = true) :
    (Matrix.resize_ st c r c2 t s2).1 = none := by
  simp [Matrix.resize_, hc]

theorem vecData_resize_other (st : Store) (c v : Vector) (n : Nat)
    (t : MatrixResizeType) (h : c.buf ≠ v.buf) (hc : c.own_data = true) :
    Vector.data (Vector.resize_ st c n t).2.1 v = Vector.data st v := by
  simp only [Vector.resize_, hc, if_true]
  exact vecData_congr _ _ _ (Store.get_writeBuf_ne _ _ _ _ h)

theorem matData_resize_other (st : Store) (c m : Matrix) (r c2 : Nat)
    (t : MatrixResizeType) (s2 : MatrixStrideType)
    (h : c.buf ≠ m.buf) (hc : c.own_data = true) :
    Matrix.data (Matrix.resize_ st c r c2 t s2).2.1 m = Matrix.data st m := by
  simp only [Matrix.resize_, hc, if_true]
  exact matData_congr _ _ _ (Store.get_writeBuf_ne _ _ _ _ h)

theorem Vector.data_setitemInt_other (st : Store) (c v : Vector) (i : Int)
    (x : ℚ) (h : c.buf ≠ v.buf) :
    Vector.data (Vector.setitemInt st c i x).2 v = Vector.data st v := by
  simp only [Vector.setitemInt, Store.setBuf]
  split_ifs <;>
    first
      | rfl
      | exact vecData_congr _ _ _ (Store.get_writeBuf_ne _ _ _ _ h)

theorem Matrix.init_nat (st : Store) (r c : Nat)
    (h : (0 < r ∧ 0 < c) ∨ (r = 0 ∧ c = 0)) :
    Matrix.init st (some (r : Int)) (some (c : Int)) =
      ((st.alloc (List.replicate (r * c) 0)).1,
        .ok ⟨st.bufs.length, 0, r, c, c, true⟩) := by
  rcases h with ⟨hr, hc⟩ | ⟨hr, hc⟩
  · simp [Matrix.init, show (0 : Int) < (r : Int) from by omega,
      show (0 : Int) < (c : Int) from by omega, Store.alloc]
  · subst hr hc
    simp [Matrix.init, Store.alloc]

/-- C5: cloning a handle, owning or not, yields a fresh fully owned handle
with the same shape and contents, and mutating the clone (resizing it or
writing an element through it) never changes the contents the source
handle sees. -/
theorem C5_clone_independence :
    (∀ st (v : Vector), Vector.valid st v →
      (Vector.clone st v).2.own_data = true ∧
      (Vector.clone st v).2.len = v.len ∧
      Vector.data (Vector.clone st v).1 (Vector.clone st v).2 = Vector.data st v ∧
      (∀ n t,
        (Vector.resize_ (Vector.clone st v).1 (Vector.clone st v).2 n t).1 = none ∧
        Vector.data
          (Vector.resize_ (Vector.clone st v).1 (Vector.clone st v).2 n t).2.1 v =
          Vector.data st v) ∧
      (∀ (i : Int) x,
        Vector.data
          (Vector.setitemInt (Vector.clone st v).1 (Vector.clone st v).2 i x).2 v =
          Vector.data st v)) ∧
    (∀ st (m : Matrix), Matrix.valid st m →
      ((0 < m.rows ∧ 0 < m.cols) ∨ (m.rows = 0 ∧ m.cols = 0)) →
      ∃ st1 c, Matrix.clone st m = (st1, .ok c) ∧
        c.own_data = true ∧ c.rows = m.rows ∧ c.cols = m.cols ∧
        Matrix.data st1 c = Matrix.data st m ∧
        ∀ r c2 t s2,
          (Matrix.resize_ st1 c r c2 t s2).1 = none ∧
          Matrix.data (Matrix.resize_ st1 c r c2 t s2).2.1 m =
            Matrix.data st m) := by
  constructor
  · intro st v hval
    obtain ⟨hb, hlen⟩ := hval
    have hclone : Vector.clone st v =
        ((st.alloc (List.replicate v.len 0)).1.writeBuf st.bufs.length
            (Vector.data (st.alloc (List.replicate v.len 0)).1 v),
          ⟨st.bufs.length, 0, v.len, true⟩) := rfl
    have hbne : st.bufs.length ≠ v.buf := by omega
    have hget1 : Store.get (st.alloc (List.replicate v.len 0)).1 v.buf =
        Store.get st v.buf := Store.get_alloc_lt _ _ _ hb
    have hdata1 : Vector.data (st.alloc (List.replicate v.len 0)).1 v =
        Vector.data st v := vecData_congr _ _ _ hget1
    have hget2 : Store.get (Vector.clone st v).1 v.buf = Store.get st v.buf := by
      rw [hclone]
      rw [Store.get_writeBuf_ne _ _ _ _ hbne, hget1]
    have hdata2 : Vector.data (Vector.clone st v).1 v = Vector.data st v :=
      vecData_congr _ _ _ hget2
    have hblt : st.bufs.length < (st.alloc (List.replicate v.len 0)).1.bufs.length := by
      rw [Store.length_alloc]; omega
    refine ⟨by rw [hclone], by rw [hclone], ?_, ?_, ?_⟩
    · rw [hclone]
      show List.take v.len (List.drop 0 (Store.get _ st.bufs.length)) = _
      rw [Store.get_writeBuf_self _ _ _ hblt, List.drop_zero, hdata1]
      rw [← Vector.length_data st v ⟨hb, hlen⟩, List.take_length]
    · intro n t
      constructor
      · exact vecResize_ok _ _ _ _ (by rw [hclone])
      · rw [vecData_resize_other _ _ _ _ _ (by rw [hclone]; exact hbne)
          (by rw [hclone])]
        exact hdata2
    · intro i x
      rw [Vector.data_setitemInt_other _ _ _ _ _ (by rw [hclone]; exact hbne)]
      exact hdata2
  · intro st m hval hshape
    obtain ⟨hb, hcs, hlen⟩ := hval
    have hinit := Matrix.init_nat st m.rows m.cols hshape
    have hclone : Matrix.clone st m =
        ((st.alloc (List.replicate (m.rows * m.cols) 0)).1.writeBuf st.bufs.length
            ((List.range (m.rows * m.cols)).map fun k =>
              Matrix.read (st.alloc (List.replicate (m.rows * m.cols) 0)).1 m
                (k / m.cols) (k % m.cols)),
          .ok ⟨st.bufs.length, 0, m.rows, m.cols, m.cols, true⟩) := by
      simp only [Matrix.clone, hinit]
    have hbne : st.bufs.length ≠ m.buf := by omega
    have hget1 : Store.get (st.alloc (List.replicate (m.rows * m.cols) 0)).1 m.buf =
        Store.get st m.buf := Store.get_alloc_lt _ _ _ hb
    have hblt : st.bufs.length <
        (st.alloc (List.replicate (m.rows * m.cols) 0)).1.bufs.length := by
      rw [Store.length_alloc]; omega
    refine ⟨_, _, hclone, rfl, rfl, rfl, ?_, ?_⟩
    · -- contents of the clone
      have hget2 : Store.get
          ((st.alloc (List.replicate (m.rows * m.cols) 0)).1.writeBuf st.bufs.length
            ((List.range (m.rows * m.cols)).map fun k =>
              Matrix.read (st.alloc (List.replicate (m.rows * m.cols) 0)).1 m
                (k / m.cols) (k % m.cols))) st.bufs.length =
          (List.range (m.rows * m.cols)).map fun k =>
            Matrix.read (st.alloc (List.replicate (m.rows * m.cols) 0)).1 m
              (k / m.cols) (k % m.cols) :=
        Store.get_writeBuf_self _ _ _ hblt
      rcases hshape with ⟨hr, hc⟩ | ⟨hr, hc⟩
      · show (List.range m.rows).map _ = (List.range m.rows).map _
        apply map_range_congr
        intro i hi
        apply map_range_congr
        intro j hj
        have hi2 : i < m.rows := hi
        have hj2 : j < m.cols := hj
        show Matrix.read _ ⟨st.bufs.length, 0, m.rows, m.cols, m.cols, true⟩ i j =
          Matrix.read st m i j
        rw [Matrix.read]
        show (Store.get _ st.bufs.length).getD (0 + i * m.cols + j) 0 = _
        rw [hget2]
        have hp : 0 + i * m.cols + j = j + m.cols * i := by ring
        have hbound : j + m.cols * i < m.rows * m.cols := by
          calc j + m.cols * i < m.cols + m.cols * i := by omega
            _ = m.cols * (i + 1) := by ring
            _ ≤ m.cols * m.rows := Nat.mul_le_mul_left _ (by omega)
            _ = m.rows * m.cols := Nat.mul_comm _ _
        rw [hp, getD_map_range _ _ _ _ hbound]
        rw [Nat.add_mul_div_left _ _ hc, Nat.div_eq_of_lt hj2,
          Nat.add_mul_mod_self_left, Nat.mod_eq_of_lt hj2]
        rw [matRead_congr st _ m (0 + i) j hget1]
        rw [Nat.zero_add]
      · simp [Matrix.data, hr]
    · -- resizing the clone leaves the source untouched
      intro r c2 t s2
      have hget2m : Store.get
          ((st.alloc (List.replicate (m.rows * m.cols) 0)).1.writeBuf st.bufs.length
            ((List.range (m.rows * m.cols)).map fun k =>
              Matrix.read (st.alloc (List.replicate (m.rows * m.cols) 0)).1 m
                (k / m.cols) (k % m.cols))) m.buf = Store.get st m.buf := by
        rw [Store.get_writeBuf_ne _ _ _ _ hbne, hget1]
      constructor
      · exact matResize_ok _ _ _ _ _ _ rfl
      · rw [matData_resize_other _ _ _ _ _ _ _ hbne rfl]
        exact matData_congr _ _ _ hget2m

/-- Witness for C5: cloning the owned vector `[1, 2, 3, 4, 5]` and the
owned 2 by 3 matrix over `[1..6]`. -/
theorem C5_witness :
    Vector.valid st5 hOwn ∧
    (Vector.clone st5 hOwn).2.own_data = true ∧
    (Vector.clone st5 hOwn).2.len = hOwn.len ∧
    Vector.data (Vector.clone st5 hOwn).1 (Vector.clone st5 hOwn).2 =
      Vector.data st5 hOwn ∧
    Vector.data (Vector.resize_ (Vector.clone st5 hOwn).1
      (Vector.clone st5 hOwn).2 2 .SET_ZERO).2.1 hOwn = Vector.data st5 hOwn ∧
    Matrix.valid st6 mOwn ∧
    (∃ st1 c, Matrix.clone st6 mOwn = (st1, .ok c) ∧
      c.own_data = true ∧ c.rows = mOwn.rows ∧ c.cols = mOwn.cols ∧
      Matrix.data st1 c = Matrix.data st6 mOwn ∧
      ∀ r c2 t s2,
        (Matrix.resize_ st1 c r c2 t s2).1 = none ∧
        Matrix.data (Matrix.resize_ st1 c r c2 t s2).2.1 mOwn =
          Matrix.data st6 mOwn) :=
  ⟨⟨by decide, by decide⟩,
    (C5_clone_independence.1 st5 hOwn ⟨by decide, by decide⟩).1,
    (C5_clone_independence.1 st5 hOwn ⟨by decide, by decide⟩).2.1,
    (C5_clone_independence.1 st5 hOwn ⟨by decide, by decide⟩).2.2.1,
    ((C5_clone_independence.1 st5 hOwn ⟨by decide, by decide⟩).2.2.2.1
      2 .SET_ZERO).2,
    ⟨by decide, by decide, by decide⟩,
    C5_clone_independence.2 st6 mOwn ⟨by decide, by decide, by decide⟩
      (Or.inl ⟨by decide, by decide⟩)⟩

end PK
